import Mathlib

/-!
Verification development for the IFSC event-name location parser
(`src/assets/helpers/event_location_v2.py`).

The Python module is shallowly embedded over `List Char`.  Python strings
become `List Char` (`Str`); Python regular expressions become hand-compiled
matchers with the exact scanning semantics of `re.finditer` / `re.sub`
(leftmost, non-overlapping, alternatives tried in source order); the
`pycountry` registry, an external dependency whose data is not part of the
repository, is modeled as an abstract record of lookup functions
(`PyCountry`), with `none` standing for the `pycountry = None` fallback
configuration the module installs when the import fails.  Exceptions that
Python code may raise inside `try`/`except` blocks are modeled with
`Except Unit`; the catching wrappers translate an `error` to `none` exactly
as the `except` clauses do.

Character-class predicates (`\s`, `\w`, `str.isalpha`, case mapping) are
modeled over the ASCII and Latin-1 letter ranges, which cover every
character the module's own tables and the dataset's event names use.
-/

namespace EventLocation

set_option maxHeartbeats 2000000 in
set_option maxHeartbeats 1000000 in
/-- Python strings are modeled as lists of characters. -/
abbrev Str := List Char

/-- Convert a Lean string literal to the embedding's string type. -/
def str (s : String) : Str := s.toList

/-! ### Character classes (ASCII + Latin-1 model of Python's predicates) -/

def isAsciiUpper (c : Char) : Bool := 65 ≤ c.toNat && c.toNat ≤ 90

def isAsciiLower (c : Char) : Bool := 97 ≤ c.toNat && c.toNat ≤ 122

def isLatin1Upper (c : Char) : Bool :=
  192 ≤ c.toNat && c.toNat ≤ 222 && c.toNat ≠ 215

def isLatin1Lower (c : Char) : Bool :=
  223 ≤ c.toNat && c.toNat ≤ 255 && c.toNat ≠ 247

/-- Model of Python `str.isalpha` on the ASCII/Latin-1 range. -/
def isPyAlpha (c : Char) : Bool :=
  isAsciiUpper c || isAsciiLower c || isLatin1Upper c || isLatin1Lower c

def isUpperChar (c : Char) : Bool := isAsciiUpper c || isLatin1Upper c

def isPyDigit (c : Char) : Bool := 48 ≤ c.toNat && c.toNat ≤ 57

/-- Model of the regex class `\w`. -/
def isWordChar (c : Char) : Bool := isPyAlpha c || isPyDigit c || c == '_'

/-- Model of the regex class `\s` / `str.split()` separators. -/
def isPySpace (c : Char) : Bool :=
  c == ' ' || c == '\t' || c == '\n' || c == '\r' || c.toNat == 11 || c.toNat == 12

def pyToLower (c : Char) : Char :=
  if isUpperChar c then Char.ofNat (c.toNat + 32) else c

def pyToUpper (c : Char) : Char :=
  if isAsciiLower c || (isLatin1Lower c && c.toNat ≠ 223 && c.toNat ≠ 255) then
    Char.ofNat (c.toNat - 32)
  else c

/-- Python `str.capitalize()`: first character upper-cased, rest lower-cased. -/
def pyCapitalize (w : Str) : Str :=
  match w with
  | [] => []
  | c :: r => pyToUpper c :: r.map pyToLower

/-- Python `str.isupper()`: some cased character, and every cased character upper. -/
def pyIsUpper (w : Str) : Bool :=
  w.any isPyAlpha && w.all (fun c => !isPyAlpha c || isUpperChar c)

/-! ### String utilities mirroring Python's `str` methods -/

def lowerStr (l : Str) : Str := l.map pyToLower

def upperStr (l : Str) : Str := l.map pyToUpper

/-- Length of the maximal leading run satisfying `p`. -/
def countWhile (p : Char → Bool) : Str → Nat
  | [] => 0
  | c :: r => if p c then countWhile p r + 1 else 0

def lstripP (p : Char → Bool) (l : Str) : Str := l.dropWhile p

def rstripP (p : Char → Bool) (l : Str) : Str := (l.reverse.dropWhile p).reverse

def stripP (p : Char → Bool) (l : Str) : Str := rstripP p (lstripP p l)

/-- Python `str.strip()` (no argument): strip whitespace at both ends. -/
def stripWS (l : Str) : Str := stripP isPySpace l

def rstripWS (l : Str) : Str := rstripP isPySpace l

/-- Python `str.strip(chars)`: strip any of the given characters at both ends. -/
def stripSet (cs : Str) (l : Str) : Str := stripP (fun c => cs.contains c) l

/-- Python slice `l[a:b]`. -/
def slice (l : Str) (a b : Nat) : Str := (l.take b).drop a

/-- `needle` is a prefix of `hay` (case-sensitive, like Python `startswith`). -/
def isPfx : Str → Str → Bool
  | [], _ => true
  | _ :: _, [] => false
  | p :: ps, c :: cs => p == c && isPfx ps cs

/-- Case-insensitive prefix test (both sides lowered, like regex `re.IGNORECASE`). -/
def isPfxCI : Str → Str → Bool
  | [], _ => true
  | _ :: _, [] => false
  | p :: ps, c :: cs => pyToLower p == pyToLower c && isPfxCI ps cs

/-- Python's `needle in hay` substring test. -/
def pyContains (needle : Str) : Str → Bool
  | [] => needle.isEmpty
  | c :: t => isPfx needle (c :: t) || pyContains needle t

/-- Python `str.split()`: split on whitespace runs, dropping empty pieces. -/
def splitWSAux : Str → Str → List Str
  | [], acc => if acc.isEmpty then [] else [acc.reverse]
  | c :: rest, acc =>
    if isPySpace c then
      if acc.isEmpty then splitWSAux rest [] else acc.reverse :: splitWSAux rest []
    else splitWSAux rest (c :: acc)

def splitWS (l : Str) : List Str := splitWSAux l []

/-- `" ".join(ws)`. -/
def joinSpace (ws : List Str) : Str := List.intercalate [' '] ws

/-- `" ".join(s.split())`: Python's whitespace normalization idiom. -/
def normWS (l : Str) : Str := joinSpace (splitWS l)

/-! ### Static lookup tables (module-level constants of the Python file) -/

/-- `REGION_ABBREV`: Australian state abbreviations treated as non-city tokens. -/
def REGION_ABBREV : List String :=
  ["NSW", "QLD", "VIC", "TAS", "SA", "WA", "NT", "ACT"]

/-- `VENUE_CHUNKS`: known venue tokens that are not cities (stored lower-case). -/
def VENUE_CHUNKS : List String := ["century plaza"]

/-- `US_STATE_NAMES`. -/
def US_STATE_NAMES : List String :=
  ["Alabama", "Alaska", "Arizona", "Arkansas", "California", "Colorado",
   "Connecticut", "Delaware", "Florida", "Georgia", "Hawaii", "Idaho",
   "Illinois", "Indiana", "Iowa", "Kansas", "Kentucky", "Louisiana", "Maine",
   "Maryland", "Massachusetts", "Michigan", "Minnesota", "Mississippi",
   "Missouri", "Montana", "Nebraska", "Nevada", "New Hampshire", "New Jersey",
   "New Mexico", "New York", "North Carolina", "North Dakota", "Ohio",
   "Oklahoma", "Oregon", "Pennsylvania", "Rhode Island", "South Carolina",
   "South Dakota", "Tennessee", "Texas", "Utah", "Vermont", "Virginia",
   "Washington", "West Virginia", "Wisconsin", "Wyoming"]

/-- `FALLBACK_ISO3_CODES`: static allow-list used when `pycountry` is absent. -/
def FALLBACK_ISO3_CODES : List String :=
  ["ARG", "AUS", "AUT", "AZE", "BEL", "BUL", "CAN", "CHI", "CHN", "CMA",
   "COL", "CRO", "CYP", "CZE", "ECU", "ESP", "FIN", "FRA", "GBR", "GER",
   "GRE", "HKG", "HUN", "IDN", "INA", "IND", "IRI", "IRN", "ITA", "JOR",
   "JPN", "KAZ", "KOR", "LTU", "MAS", "MEX", "MKD", "MYS", "NCL", "NED",
   "NOR", "NZL", "PER", "PHI", "POL", "POR", "PRK", "QAT", "RSA", "RUS",
   "SGP", "SIN", "SLO", "SRB", "SUI", "SVK", "SWE", "THA", "TPE", "UKR",
   "USA", "VEN"]

/-- `COUNTRY_NAME_OVERRIDES`: curated name → ISO3 map. -/
def COUNTRY_NAME_OVERRIDES : List (String × String) :=
  [("china", "CHN"), ("france", "FRA"), ("hong kong", "HKG"),
   ("indonesia", "IDN"), ("iran", "IRN"), ("malaysia", "MYS"),
   ("new caledonia", "NCL"), ("peru", "PER"), ("republic of korea", "PRK")]

/-- `EVENT_KEYWORDS`, pre-sorted by length descending with Python's stable
sort, i.e. the order in which the compiled alternation tries them. -/
def EVENT_KEYWORDS_SORTED : List String :=
  ["continental championships", "continental championship",
   "world championships", "world championship",
   "qualifications",
   "championships", "qualification",
   "championship", "competitions",
   "panamerican", "rock master", "competition",
   "grand prix", "grand-prix", "bouldering", "rockmaster",
   "world cup", "qualifier", "rockstars",
   "worldcup", "festival", "european", "climbing", "rockstar",
   "masters", "african", "oceania",
   "series", "junior", "senior", "trophy",
   "youth", "asian", "games",
   "open", "days",
   "cup"]

/-- `END_KEYWORDS`, pre-sorted by length descending (stable). -/
def END_KEYWORDS_SORTED : List String :=
  ["championships",
   "championship", "competitions",
   "rock master", "competition",
   "rockmaster",
   "world cup",
   "festival", "climbing", "worldcup",
   "masters",
   "series", "trophy",
   "games", "world",
   "open",
   "cup"]

/-- `STOPWORDS`. -/
def STOPWORDS : List String :=
  ["of", "de", "del", "di", "da", "la", "le", "du", "des", "the", "a", "an"]

/-- `KEYWORDS_WORDS`: the individual words of `EVENT_KEYWORDS` plus a few
extras, split on whitespace and dashes and lower-cased (set comprehension in
the source; listed here without duplicates). -/
def KEYWORDS_WORDS : List String :=
  ["world", "championship", "championships", "continental", "cup", "worldcup",
   "series", "open", "masters", "festival", "grand", "prix", "youth",
   "junior", "senior", "european", "asian", "panamerican", "african",
   "oceania", "qualifier", "qualification", "qualifications", "bouldering",
   "climbing", "days", "rock", "master", "rockmaster", "trophy",
   "competition", "competitions", "rockstars", "rockstar", "games",
   "ifsc", "uiaa", "x", "espn", "intl", "int"]

/-- `BLACKLIST_CITY_SUBSTR`. -/
def BLACKLIST_CITY_SUBSTR : List String :=
  ["melloblocco", "the north face", "north face"]

/-- The `noise_edge` vocabulary of `clean_city`. -/
def NOISE_EDGE : List String :=
  ["ifsc", "uiaa", "climbing", "world", "cup", "worldcup", "championship",
   "championships", "series", "open", "masters", "festival", "event",
   "international", "internationals", "competition", "competitions",
   "youth", "junior", "senior", "days", "trophy", "x-games", "xgames",
   "espn", "rockstars", "rockstar", "int", "intl"]

/-- The `prefix_phrases` list of `postprocess_city`. -/
def PREFIX_PHRASES : List String :=
  ["speed rock", "blocmaster", "bouldertag", "nikoloklettern",
   "demonstration", "triglav the rock", "copa aldea", "bouldertehdas",
   "master"]

/-! ### The `pycountry` registry, abstractly

`pycountry` is imported inside `try`/`except`; when the import fails the
module sets `pycountry = None` and every lookup degrades to the static
tables.  We model an available registry as a record of the three lookup
entry points the module uses.  Calls that Python wraps in `try`/`except`
are given type `Except Unit _` so that a raised exception is an explicit
`error` value; `countries.get(alpha_3=...) is not None` never raises and is
modeled as a `Bool`-valued membership test. -/

structure PyCountry where
  /-- `pycountry.countries.lookup(token).alpha_3`; may raise. -/
  lookup : String → Except Unit String
  /-- `pycountry.countries.get(alpha_3=code) is not None`. -/
  getAlpha3 : String → Bool
  /-- `pycountry.countries.search_fuzzy(name)`, the `alpha_3` fields of the
  result list; may raise. -/
  searchFuzzy : String → Except Unit (List String)

/-- `_pycountry_lookup_safe`: a raised exception is converted to `None`. -/
def pycountryLookupSafe (pyc : Option PyCountry) (token : Str) : Option String :=
  match pyc with
  | none => none
  | some db =>
    match db.lookup (String.mk token) with
    | .ok a => some a
    | .error _ => none

/-- The `try: pycountry.countries.search_fuzzy(s)[0].alpha_3 except: None`
fragment of `country_name_to_iso3_safe` (an empty result list raises
`IndexError`, which the `except` also catches). -/
def searchFuzzyFirstSafe (db : PyCountry) (s : Str) : Option String :=
  match db.searchFuzzy (String.mk s) with
  | .ok [] => none
  | .ok (a :: _) => some a
  | .error _ => none

/-- `_is_known_iso3`. -/
def isKnownIso3 (pyc : Option PyCountry) (code : String) : Bool :=
  match pyc with
  | some db => db.getAlpha3 code
  | none => FALLBACK_ISO3_CODES.contains code

/-- `re.fullmatch(r"[A-Z]{3}", t)` as a predicate on the embedded string. -/
def isUpper3 (l : Str) : Bool := l.length == 3 && l.all isAsciiUpper

/-- `re.fullmatch(r"[A-Z]{2,3}", t)`. -/
def isUpper2or3 (l : Str) : Bool :=
  (l.length == 2 || l.length == 3) && l.all isAsciiUpper

/-- `re.fullmatch(r"(19|20)\d{2}", w)` on a single word. -/
def isYearWord (l : Str) : Bool :=
  match l with
  | a :: b :: c :: d :: [] =>
    ((a == '1' && b == '9') || (a == '2' && b == '0')) && isPyDigit c && isPyDigit d
  | _ => false

/-- The normalization prefix of `country_name_to_iso3_safe`:
`name.strip().strip(".").replace("’", "\x27")`. -/
def cnisPrep (name : Str) : Str :=
  (stripSet (str ".") (stripWS name)).map (fun c => if c == '’' then '\'' else c)

/-- The `UK` / `U.K.` / `UAE` rewrites of `country_name_to_iso3_safe`. -/
def cnisRewrite (s0 : Str) : Str :=
  if upperStr (if upperStr s0 == str "UK" || upperStr s0 == str "U.K." then
      str "United Kingdom" else s0) == str "UAE" then
    str "United Arab Emirates"
  else if upperStr s0 == str "UK" || upperStr s0 == str "U.K." then
    str "United Kingdom"
  else s0

/-- The country-indicative-word test gating fuzzy search. -/
def cnisStrong (s : Str) : Bool :=
  ["republic", "kingdom", "united", "federation", "democratic", "people",
   "state", "states", "emirates", "caledonia", "islands"].any
    (fun k => pyContains (str k) (lowerStr s))

/-- `country_name_to_iso3_safe`: conservative country-name → ISO3 mapping. -/
def countryNameToIso3Safe (pyc : Option PyCountry) (name : Str) : Option String :=
  if (cnisPrep name).length ≤ 2 then none
  else if upperStr (cnisRewrite (cnisPrep name)) == str "USA" then some "USA"
  else
    match COUNTRY_NAME_OVERRIDES.lookup
        (String.mk (lowerStr (stripWS (cnisRewrite (cnisPrep name))))) with
    | some o => some o
    | none =>
      match pycountryLookupSafe pyc (cnisRewrite (cnisPrep name)) with
      | some iso3 => some iso3
      | none =>
        match pyc with
        | none => none
        | some db =>
          if cnisStrong (cnisRewrite (cnisPrep name)) ||
              12 ≤ (cnisRewrite (cnisPrep name)).length then
            searchFuzzyFirstSafe db (cnisRewrite (cnisPrep name))
          else none

/-- The token normalization of `looks_like_country_token`:
`token.strip().strip(",;")`. -/
def llcPrep (token : Str) : Str := stripSet (str ",;") (stripWS token)

/-- `looks_like_country_token`. -/
def looksLikeCountryToken (pyc : Option PyCountry) (token : Str) : Option String :=
  if (llcPrep token).isEmpty then none
  else if isUpper3 (llcPrep token) then
    if isKnownIso3 pyc (String.mk (llcPrep token)) then
      some (String.mk (llcPrep token))
    else none
  else countryNameToIso3Safe pyc (llcPrep token)

/-! ### Regex scanning framework

A `Matcher κ` attempts an anchored match at the current position; it
receives the previous character (for `\b` word boundaries) and the suffix
starting at the position, and returns the number of characters consumed
together with a capture.  `findAll` reproduces `re.finditer`: scan left to
right, on success record the match and resume after it, on failure advance
one character.  All matchers below consume at least one character, so the
fuel (length of the string plus one) is never exhausted. -/

abbrev Matcher (κ : Type) := Option Char → Str → Option (Nat × κ)

/-- `prev'` after consuming `n` characters of `l`. -/
def lastOf (prev : Option Char) (l : Str) (n : Nat) : Option Char :=
  match (l.take n).getLast? with
  | some c => some c
  | none => prev

def findAllAux {κ : Type} (m : Matcher κ) :
    Nat → Option Char → Nat → Str → List (Nat × Nat × κ)
  | 0, _, _, _ => []
  | fuel + 1, prev, i, l =>
    match m prev l with
    | some (n, k) =>
      (i, i + n, k) :: findAllAux m fuel (lastOf prev l n) (i + n) (l.drop n)
    | none =>
      match l with
      | [] => []
      | c :: rest => findAllAux m fuel (some c) (i + 1) rest

/-- All matches of `m` in `l`, as `(start, stop, capture)` triples. -/
def findAll {κ : Type} (m : Matcher κ) (l : Str) : List (Nat × Nat × κ) :=
  findAllAux m (l.length + 1) none 0 l

/-- `_last_match`: the last match of the pattern, or `none`. -/
def lastMatch {κ : Type} (m : Matcher κ) (l : Str) : Option (Nat × Nat × κ) :=
  (findAll m l).getLast?

/-- `re.sub(pattern, "", s)`: delete every non-overlapping match. -/
def subAllAux {κ : Type} (m : Matcher κ) : Nat → Option Char → Str → Str
  | 0, _, l => l
  | fuel + 1, prev, l =>
    match m prev l with
    | some (n, _) => subAllAux m fuel (lastOf prev l n) (l.drop n)
    | none =>
      match l with
      | [] => []
      | c :: rest => c :: subAllAux m fuel (some c) rest

def subAll {κ : Type} (m : Matcher κ) (l : Str) : Str :=
  subAllAux m (l.length + 1) none l

/-- `\b` holds before the current (word) character. -/
def boundaryBefore (prev : Option Char) : Bool :=
  match prev with
  | none => true
  | some c => !isWordChar c

/-- `\b` holds after a word character when the rest starts with a non-word
character or is empty. -/
def boundaryAfter (rest : Str) : Bool :=
  match rest with
  | [] => true
  | c :: _ => !isWordChar c

/-! ### The individual patterns of the module -/

/-- `COUNTRY_ISO3_PAREN_RE = \(\s*([A-Z]{3})\s*\)`. -/
def matchIso3Paren : Matcher String := fun _ l =>
  match l with
  | '(' :: r =>
    match r.drop (countWhile isPySpace r) with
    | a :: b :: c :: r3 =>
      if isAsciiUpper a && isAsciiUpper b && isAsciiUpper c then
        match r3.drop (countWhile isPySpace r3) with
        | ')' :: _ =>
          some (countWhile isPySpace r + countWhile isPySpace r3 + 5, String.mk [a, b, c])
        | _ => none
      else none
    | _ => none
  | _ => none

/-- `COUNTRY_ISO3_RPAREN_RE = \b([A-Z]{3})\s*\)` (broken parenthesis form). -/
def matchIso3Rparen : Matcher String := fun prev l =>
  if boundaryBefore prev then
    match l with
    | a :: b :: c :: r3 =>
      if isAsciiUpper a && isAsciiUpper b && isAsciiUpper c then
        match r3.drop (countWhile isPySpace r3) with
        | ')' :: _ => some (countWhile isPySpace r3 + 4, String.mk [a, b, c])
        | _ => none
      else none
    | _ => none
  else none

/-- `YEAR_RE = \b(?:19|20)\d{2}\b`. -/
def matchYear : Matcher String := fun prev l =>
  if boundaryBefore prev then
    match l with
    | a :: b :: c :: d :: rest =>
      if ((a == '1' && b == '9') || (a == '2' && b == '0'))
          && isPyDigit c && isPyDigit d && boundaryAfter rest then
        some (4, String.mk [a, b, c, d])
      else none
    | _ => none
  else none

/-- Character class `[A-Za-z \-\'’\.]` of `PAREN_CONTENT_RE`. -/
def isParenContentChar (c : Char) : Bool :=
  isAsciiUpper c || isAsciiLower c || c == ' ' || c == '-' || c == '\'' ||
    c == '’' || c == '.'

/-- `PAREN_CONTENT_RE = \(\s*([A-Za-z][A-Za-z \-\'’\.]{2,})\s*\)`.  The
class contains the space, so the greedy group absorbs any spaces before the
closing parenthesis; the match therefore requires `)` directly after the
maximal class run, which must be at least three characters long and start
with a letter. -/
def matchParenContent : Matcher String := fun _ l =>
  match l with
  | '(' :: r =>
    let k := countWhile isPySpace r
    match r.drop k with
    | c0 :: r3 =>
      if isAsciiUpper c0 || isAsciiLower c0 then
        let n := countWhile isParenContentChar r3
        if 2 ≤ n then
          match r3.drop n with
          | ')' :: _ => some (k + n + 3, String.mk (c0 :: r3.take n))
          | _ => none
        else none
      else none
    | [] => none
  | _ => none

/-- `SEP_RE = (?:,\s*|\s-\s*|-\s+)`, alternatives tried in source order. -/
def matchSep : Matcher Unit := fun _ l =>
  match l with
  | ',' :: r => some (1 + countWhile isPySpace r, ())
  | c :: rest =>
    if isPySpace c then
      match rest with
      | '-' :: r2 => some (2 + countWhile isPySpace r2, ())
      | _ => none
    else if c == '-' then
      let k := countWhile isPySpace rest
      if 1 ≤ k then some (1 + k, ()) else none
    else none
  | [] => none

/-- The characters `L`, `S`, `B` of the discipline patterns (IGNORECASE). -/
def isLSB (c : Char) : Bool :=
  c == 'L' || c == 'S' || c == 'B' || c == 'l' || c == 's' || c == 'b'

/-- After an initial discipline letter: the starred group
`(?:\s*(?:,|/)\s*[LSB]|\s*-\s*[LSB])*` followed by `\s*\)`.  Returns the
number of characters consumed from the current point through `)`.  The star
is greedy, but after the shared `\s*` the next character decides between
iterating (`,`, `/`, `-`) and closing (`)`); a failed iteration cannot be
rescued by closing, because the separator character is not `)`. -/
def discBlockLoop : Nat → Str → Option Nat
  | 0, _ => none
  | fuel + 1, cur =>
    let k := countWhile isPySpace cur
    match cur.drop k with
    | ')' :: _ => some (k + 1)
    | c :: r =>
      if c == ',' || c == '/' || c == '-' then
        let k2 := countWhile isPySpace r
        match r.drop k2 with
        | c2 :: r2 =>
          if isLSB c2 then
            match discBlockLoop fuel r2 with
            | some n => some (k + 1 + k2 + 1 + n)
            | none => none
          else none
        | [] => none
      else none
    | [] => none

/-- `DISCIPLINE_BLOCK_RE = \(\s*[LSB](?:\s*(?:,|/)\s*[LSB]|\s*-\s*[LSB])*\s*\)`. -/
def matchDiscBlock : Matcher Unit := fun _ l =>
  match l with
  | '(' :: r =>
    let k := countWhile isPySpace r
    match r.drop k with
    | c :: r2 =>
      if isLSB c then
        match discBlockLoop (r2.length + 1) r2 with
        | some n => some (k + 2 + n, ())
        | none => none
      else none
    | [] => none
  | _ => none

/-- `DISCIPLINE_PAREN_RE = \(\s*(?:L|S|B)\s*\)`. -/
def matchDiscParen : Matcher Unit := fun _ l =>
  match l with
  | '(' :: r =>
    let k := countWhile isPySpace r
    match r.drop k with
    | c :: r2 =>
      if isLSB c then
        let k2 := countWhile isPySpace r2
        match r2.drop k2 with
        | ')' :: _ => some (k + k2 + 3, ())
        | _ => none
      else none
    | [] => none
  | _ => none

/-- One alternative of `EVENT_KEYWORD_RE` / `END_KEYWORD_RE`: the keyword
matches case-insensitively at the current position and is followed by a
word boundary. -/
def kwMatchesAt (kw : Str) (l : Str) : Bool :=
  isPfxCI kw l && boundaryAfter (l.drop kw.length)

/-- `\b(kw₁|kw₂|…)\b` with the alternatives in the compiled order. -/
def matchKeyword (kws : List String) : Matcher String := fun prev l =>
  if boundaryBefore prev then
    match kws.find? (fun kw => kwMatchesAt (str kw) l) with
    | some kw => some ((str kw).length, kw)
    | none => none
  else none

/-- `EVENT_KEYWORD_RE`. -/
def matchEventKeyword : Matcher String := matchKeyword EVENT_KEYWORDS_SORTED

/-- `END_KEYWORD_RE = \b(kw₁|…)\b\s*$` via `re.search`: the start position of
the leftmost match.  The trailing context `\b\s*$` holds exactly when every
character after the keyword is whitespace. -/
def endKeywordSearchAux : Nat → Option Char → Nat → Str → Option Nat
  | 0, _, _, _ => none
  | fuel + 1, prev, i, l =>
    if boundaryBefore prev &&
        (END_KEYWORDS_SORTED.any (fun kw =>
          isPfxCI (str kw) l && (l.drop (str kw).length).all isPySpace)) then
      some i
    else
      match l with
      | [] => none
      | c :: rest => endKeywordSearchAux fuel (some c) (i + 1) rest

def endKeywordSearch (l : Str) : Option Nat :=
  endKeywordSearchAux (l.length + 1) none 0 l

/-! ### The rewrite steps of `clean_city` -/

/-- `re.sub(r"^\d+\s*[\.\)]\s*", "", c)`: drop a leading numbering. -/
def subLeadingNumber (l : Str) : Str :=
  let k1 := countWhile isPyDigit l
  if 1 ≤ k1 then
    let r1 := l.drop k1
    let k2 := countWhile isPySpace r1
    match r1.drop k2 with
    | c :: rest =>
      if c == '.' || c == ')' then rest.drop (countWhile isPySpace rest) else l
    | [] => l
  else l

/-- `re.sub(r"^(?:\d+(?:st|nd|rd|th))\s+", "", c, flags=IGNORECASE)`. -/
def subOrdinal (l : Str) : Str :=
  let k1 := countWhile isPyDigit l
  if 1 ≤ k1 then
    let r1 := l.drop k1
    if ["st", "nd", "rd", "th"].any (fun sfx => isPfxCI (str sfx) r1) then
      let r2 := r1.drop 2
      let k2 := countWhile isPySpace r2
      if 1 ≤ k2 then r2.drop k2 else l
    else l
  else l

/-- `re.match(r"^The\s+Rock\s+(.+)$", c, IGNORECASE)` followed by
`c = m.group(1).strip()`.  If the greedy `\s+` leaves nothing for `(.+)`,
the engine backtracks one space into the group, which then strips to
empty. -/
def subTheRock (l : Str) : Str :=
  if isPfxCI (str "the") l then
    let r1 := l.drop 3
    let k1 := countWhile isPySpace r1
    let r1b := r1.drop k1
    if 1 ≤ k1 && isPfxCI (str "rock") r1b then
      let r2 := r1b.drop 4
      let k2 := countWhile isPySpace r2
      if 1 ≤ k2 then
        let rest := r2.drop k2
        if !rest.isEmpty then stripWS rest
        else if 2 ≤ k2 then [] else l
      else l
    else l
  else l

/-- The suffix `\s+Natural\s+Games$` of the Natural-Games pattern. -/
def ngSuffixMatches (r : Str) : Bool :=
  let k1 := countWhile isPySpace r
  1 ≤ k1 &&
    (let r1 := r.drop k1
     isPfxCI (str "natural") r1 &&
       (let r2 := r1.drop 7
        let k2 := countWhile isPySpace r2
        1 ≤ k2 &&
          (let r3 := r2.drop k2
           isPfxCI (str "games") r3 && (r3.drop 5).isEmpty)))

/-- Lazy scan for `^(.+?)\s+Natural\s+Games$`: the shortest non-empty prefix
whose remainder matches the suffix pattern. -/
def ngAux : Str → Str → Option Str
  | _, [] => none
  | accRev, c :: rest =>
    if ngSuffixMatches rest then some (c :: accRev).reverse
    else ngAux (c :: accRev) rest

/-- `re.match(r"^(.+?)\s+Natural\s+Games$", c, IGNORECASE)` followed by
`c = m.group(1).strip()`. -/
def subNaturalGames (l : Str) : Str :=
  match ngAux [] l with
  | some g => stripWS g
  | none => l

/-- `re.sub(r"^AREA\s*47\s+", "", c, flags=IGNORECASE)`. -/
def subArea47 (l : Str) : Str :=
  if isPfxCI (str "area") l then
    let r1 := l.drop 4
    let r2 := r1.drop (countWhile isPySpace r1)
    if isPfx (str "47") r2 then
      let r3 := r2.drop 2
      let k2 := countWhile isPySpace r3
      if 1 ≤ k2 then r3.drop k2 else l
    else l
  else l

/-- Attempt `Citt[àa][\x27’]?\s*di\s*(.+)$` at the current position,
returning the captured group.  The optional apostrophe is greedy with a
backtracking retry; a `(.+)` left empty by the greedy `\s*` backtracks one
space into the group. -/
def cittaAt (r : Str) : Option Str :=
  if isPfxCI (str "citt") r then
    match r.drop 4 with
    | c :: r2 =>
      if c == 'à' || c == 'a' || c == 'À' || c == 'A' then
        let tryFrom : Str → Option Str := fun r3 =>
          let k := countWhile isPySpace r3
          if isPfxCI (str "di") (r3.drop k) then
            let r4 := (r3.drop k).drop 2
            let k2 := countWhile isPySpace r4
            let rest := r4.drop k2
            if !rest.isEmpty then some rest
            else if 1 ≤ k2 then some (r4.drop (k2 - 1))
            else none
          else none
        match r2 with
        | q :: r3 =>
          if q == '\'' || q == '’' then
            match tryFrom r3 with
            | some g => some g
            | none => tryFrom r2
          else tryFrom r2
        | [] => tryFrom r2
      else none
    | [] => none
  else none

/-- `re.search` for the Città pattern: leftmost matching position. -/
def cittaSearch : Str → Option Str
  | [] => none
  | c :: rest =>
    match cittaAt (c :: rest) with
    | some g => some g
    | none => cittaSearch rest

/-- The Città step of `clean_city`: `c = m.group(1).strip()` on a match. -/
def subCitta (l : Str) : Str :=
  match cittaSearch l with
  | some g => stripWS g
  | none => l

/-- The embedded-year step: keep the tail after the last year when it still
contains a letter (`c[last.end():].strip(" ,;:-").strip()`). -/
def yearTailStep (l : Str) : Str :=
  match lastMatch matchYear l with
  | some (_, en, _) =>
    let tail := stripWS (stripSet (str " ,;:-") (l.drop en))
    if !tail.isEmpty && tail.any isPyAlpha then tail else l
  | none => l

/-- `_cut_after_keywords`. -/
def cutAfterKeywords (l : Str) : Str :=
  match lastMatch matchEventKeyword l with
  | some (_, en, _) =>
    if en < l.length then
      let rest := stripWS (stripSet (str " -,:;") (l.drop en))
      if !rest.isEmpty && rest.any isPyAlpha then rest else l
    else l
  | none => l

/-- The end-keyword step of `clean_city`: take the prefix before a terminal
keyword when something meaningful remains. -/
def endKeywordStep (l : Str) : Str :=
  match endKeywordSearch l with
  | some st =>
    let pre := stripWS (stripSet (str " ,;:-") (l.take st))
    if !pre.isEmpty && pre.any isPyAlpha then pre else l
  | none => l

/-- `re.sub(r"^[^\w]+|[^\w]+$", "", w).lower()`: the key used for the
edge-noise comparison. -/
def edgeKey (w : Str) : Str := lowerStr (stripP (fun c => !isWordChar c) w)

/-- The edge-noise stripping loop of `clean_city`: repeatedly drop the first
or last word while its key is in the `noise_edge` vocabulary. -/
def edgeLoop : Nat → List Str → List Str
  | 0, ws => ws
  | fuel + 1, ws =>
    match ws with
    | [] => []
    | w :: rest =>
      if NOISE_EDGE.contains (String.mk (edgeKey w)) then edgeLoop fuel rest
      else
        match (w :: rest).reverse with
        | wl :: restRev =>
          if NOISE_EDGE.contains (String.mk (edgeKey wl)) then
            edgeLoop fuel restRev.reverse
          else w :: rest
        | [] => w :: rest

def endsWithCI (l pat : Str) : Bool := isPfxCI pat.reverse l.reverse

/-- `re.sub(r"\bPAT\b\.?$", "", c, flags=IGNORECASE)` for a literal keyword
`PAT` that starts and ends with word characters: drop the suffix (with an
optional final dot) when a word boundary precedes it. -/
def subTrailingWord (pat : Str) (l : Str) : Str :=
  let trySuffix : Str → Option Str := fun suffix =>
    if endsWithCI l suffix then
      let pre := l.take (l.length - suffix.length)
      match pre.getLast? with
      | none => some pre
      | some c => if !isWordChar c then some pre else none
    else none
  match trySuffix (pat ++ ['.']) with
  | some pre => pre
  | none =>
    match trySuffix pat with
    | some pre => pre
    | none => l

/-- `re.sub(r"\bX-?Games\b\.?$", "", c, flags=IGNORECASE)`: the two
alternatives of `X-?Games`, longer (earlier-starting) form first. -/
def subTrailingXGames (l : Str) : Str :=
  let withDash := subTrailingWord (str "x-games") l
  if withDash == l then subTrailingWord (str "xgames") l else withDash

/-- `tidy_case`: title-case a mostly-uppercase string. -/
def tidyCase (l : Str) : Str :=
  let letters := l.filter isPyAlpha
  if !letters.isEmpty && 9 * letters.length < 10 * (letters.filter isUpperChar).length then
    joinSpace ((splitWS l).map (fun w => if pyIsUpper w then pyCapitalize w else w))
  else l

/-- The final validation gates of `clean_city` (its last six `if`s). -/
def validateCity (pyc : Option PyCountry) (y : Str) : Option Str :=
  if y.isEmpty then none
  else if BLACKLIST_CITY_SUBSTR.any (fun sub => pyContains (str sub) (lowerStr y)) then
    none
  else if lowerStr y == str "republic of korea" || lowerStr y == str "korea" ||
      lowerStr y == str "china" then
    none
  else if y.contains '(' || y.contains ')' then none
  else if !(y.any isPyAlpha) then none
  else if isUpper3 y && isKnownIso3 pyc (String.mk y) then none
  else some y

/-- The rewriting pipeline of `clean_city`, up to (but excluding) the final
validation gates; steps in source order. -/
def cleanTransform (raw : Str) : Str :=
  let c1 := subAll matchDiscBlock raw
  let c2 := subAll matchDiscParen c1
  let c3 := stripP (fun c => c == '"' || c == '\'') (stripWS (normWS c2))
  let c4 := subOrdinal (subLeadingNumber c3)
  let c5 := subCitta (subArea47 (subNaturalGames (subTheRock c4)))
  let c6 := stripWS (stripSet (str ",;:-") (stripWS c5))
  let c7 := yearTailStep c6
  let c8 := cutAfterKeywords c7
  let c9 := cutAfterKeywords (endKeywordStep c8)
  let ws := splitWS c9
  let c10 := joinSpace (edgeLoop (ws.length + 1) ws)
  let c11 := stripWS (stripSet (str ",;:-") (stripWS c10))
  let c12 := stripWS (subTrailingXGames c11)
  let c13 := stripWS (subTrailingWord (str "espn") c12)
  let c14 := stripWS (stripSet (str " ,;:-") c13)
  tidyCase c14

/-- `clean_city`: normalize/clean a raw city candidate, `none` when it does
not look like a location. -/
def cleanCity (pyc : Option PyCountry) (raw : Str) : Option Str :=
  if raw.isEmpty then none
  else validateCity pyc (cleanTransform raw)

/-! ### `postprocess_city` and its helpers -/

/-- `_strip_us_state_suffix`. -/
def stripUsStateSuffix (city : Str) : Str :=
  if city.isEmpty || !(city.contains ' ') then city
  else
    let words := splitWS city
    if 2 < words.length &&
        US_STATE_NAMES.contains (String.mk (joinSpace (words.drop (words.length - 2)))) then
      stripWS (joinSpace (words.take (words.length - 2)))
    else if 3 < words.length &&
        US_STATE_NAMES.contains (String.mk (joinSpace (words.drop (words.length - 3)))) then
      stripWS (joinSpace (words.take (words.length - 3)))
    else
      match words.getLast? with
      | some lw =>
        if US_STATE_NAMES.contains (String.mk lw) then
          stripWS (joinSpace words.dropLast)
        else city
      | none => city

/-- `\s+hips\b` (IGNORECASE), used with `re.sub`. -/
def matchHips : Matcher Unit := fun _ l =>
  let k := countWhile isPySpace l
  if 1 ≤ k && isPfxCI (str "hips") (l.drop k) && boundaryAfter ((l.drop k).drop 4) then
    some (k + 4, ())
  else none

/-- `re.search(r"\bprovince\b\s*$", c, IGNORECASE)` as a test: after
discarding trailing whitespace, the string ends with the word `province`
preceded by a word boundary. -/
def provinceEndSearch (c : Str) : Bool :=
  let r := rstripWS c
  endsWithCI r (str "province") &&
    (r.length == 8 ||
      (match (r.take (r.length - 8)).getLast? with
       | some ch => !isWordChar ch
       | none => true))

/-- `re.sub(r"\s+province\s*$", "", c, IGNORECASE)`. -/
def subProvinceEnd (c : Str) : Str :=
  let r := rstripWS c
  if endsWithCI r (str "province") then
    let pre := r.take (r.length - 8)
    match pre.getLast? with
    | some ch => if isPySpace ch then rstripWS pre else c
    | none => c
  else c

/-- Step 1 of `postprocess_city`: strip a leading `of `. -/
def ppOf (c : Str) : Str :=
  if isPfxCI (str "of ") c then stripWS (c.drop 3) else c

/-- Step 2 of `postprocess_city`: strip the first matching event-prefix
phrase (the loop breaks after one hit). -/
def ppPhrase (c : Str) : Str :=
  match PREFIX_PHRASES.find? (fun ph => isPfxCI (str ph ++ [' ']) c) with
  | some ph => stripWS (c.drop ((str ph).length + 1))
  | none => c

/-- Step 3 of `postprocess_city`: strip a leading discipline word
`Boulder ` unless the whole city is exactly that word
(`c.split(" ", 1)[1].strip()`). -/
def ppBoulder (c : Str) : Str :=
  if isPfxCI (str "boulder ") c && !(lowerStr (stripWS c) == str "boulder") then
    stripWS ((c.dropWhile (fun ch => !(ch == ' '))).drop 1)
  else c

/-- Step 4 of `postprocess_city`: the `namBa HIPS` fix, gated on the raw
event name. -/
def ppHips (ev c : Str) : Str :=
  if endsWithCI c (str " hips") && pyContains (str "namba hips") ev then
    stripWS (subAll matchHips c)
  else c

/-- Step 5 of `postprocess_city`: strip a trailing `Province`, only for
China. -/
def ppProvince (country : Option String) (c : Str) : Str :=
  if country == some "CHN" && provinceEndSearch c then
    stripWS (subProvinceEnd c)
  else c

/-- Step 6 of `postprocess_city`: strip a trailing U.S. state name, only
for the USA. -/
def ppUsa (country : Option String) (c : Str) : Str :=
  if country == some "USA" then
    if !(stripUsStateSuffix c).isEmpty then stripUsStateSuffix c else c
  else c

/-- `postprocess_city`: targeted, low-risk fixes, in source order. -/
def postprocessCity (city? : Option Str) (country : Option String)
    (eventName : Str) : Option Str :=
  match city? with
  | none => none
  | some city =>
    if (stripWS city).isEmpty then none
    else if pyContains (str "rock junior") (lowerStr eventName) &&
        (lowerStr (stripWS city) == str "rock" ||
          lowerStr (stripWS city) == str "rock junior") then
      none
    else
      match stripWS (tidyCase (ppUsa country (ppProvince country
          (ppHips (lowerStr eventName)
            (ppBoulder (ppPhrase (ppOf (stripWS city)))))))) with
      | [] => none
      | c :: cs => some (c :: cs)

/-- `finalize_city`: clean plus targeted postprocessing. -/
def finalizeCity (pyc : Option PyCountry) (raw : Str) (country : Option String)
    (eventName : Str) : Option Str :=
  postprocessCity (cleanCity pyc raw) country eventName

/-! ### Segment extraction and the public parser -/

/-- The scanning loop of `extract_tail_location`, over the reversed word
list, accumulating at most four location words. -/
def extractTailLoop : List Str → List Str → List Str
  | [], tail => tail
  | w :: rest, tail =>
    let wClean := stripP (fun c => !isWordChar c) w
    if wClean.isEmpty then extractTailLoop rest tail
    else
      let wl := lowerStr wClean
      if STOPWORDS.contains (String.mk wl) then extractTailLoop rest tail
      else if KEYWORDS_WORDS.contains (String.mk wl) then tail
      else if isYearWord wl then extractTailLoop rest tail
      else
        let tail' := tail ++ [wClean]
        if 4 ≤ tail'.length then tail' else extractTailLoop rest tail'

/-- `extract_tail_location`. -/
def extractTailLocation (pref : Str) : Option Str :=
  let tail := extractTailLoop (splitWS pref).reverse []
  if tail.isEmpty then none
  else some (stripWS (joinSpace tail.reverse))

/-- Pair each separator match with its predecessor, in reverse order: the
walk `for i in range(len(matches)-1, -1, -1)` over `(matches[i],
matches[i-1])`. -/
def withPrev {κ : Type} (ms : List (Nat × Nat × κ)) :
    List ((Nat × Nat × κ) × Option (Nat × Nat × κ)) :=
  (ms.zip (none :: ms.map some)).reverse

/-- `left[m.end():].strip().strip(" ,;:-")`: the trailing chunk after a
separator match. -/
def chunkAfter (left : Str) (pos : Nat) : Str :=
  stripSet (str " ,;:-") (stripWS (left.drop pos))

/-- `left[a:b].strip().strip(" ,;:-")`: the segment between two separator
matches. -/
def segBetween (left : Str) (a b : Nat) : Str :=
  stripSet (str " ,;:-") (stripWS (slice left a b))

/-- The separator walk of `_city_from_left_segment`. -/
def cityWalk (left : Str) :
    List ((Nat × Nat × Unit) × Option (Nat × Nat × Unit)) → Str
  | [] => []
  | (m, pm) :: rest =>
    if (chunkAfter left m.2.1).isEmpty then cityWalk left rest
    else if VENUE_CHUNKS.contains (String.mk (lowerStr (chunkAfter left m.2.1))) &&
        pm.isSome then
      match pm with
      | some pmm =>
        if (segBetween left pmm.2.1 m.1).isEmpty then cityWalk left rest
        else segBetween left pmm.2.1 m.1
      | none => cityWalk left rest
    else if isUpper2or3 (chunkAfter left m.2.1) &&
        REGION_ABBREV.contains (String.mk (chunkAfter left m.2.1)) && pm.isSome then
      match pm with
      | some pmm =>
        if (segBetween left pmm.2.1 m.1).isEmpty then cityWalk left rest
        else segBetween left pmm.2.1 m.1
      | none => cityWalk left rest
    else chunkAfter left m.2.1

/-- `_city_from_left_segment`. -/
def cityFromLeftSegment (left : Str) : Str :=
  cityWalk left (withPrev (findAll matchSep left))

/-- Steps 1–2 of `parse_city_country`, name-in-parentheses fallback: the
last parenthesized content that resolves to a country. -/
def findAnchorName (pyc : Option PyCountry) (s : Str) : Option (Nat × Nat × String) :=
  match lastMatch matchParenContent s with
  | some (st, en, content) =>
    match countryNameToIso3Safe pyc content.toList with
    | some iso3 => some (st, en, iso3)
    | none => none
  | none => none

/-- Steps 1–2 of `parse_city_country`: the country anchor, as
`(start, stop, iso3)`.  A well-formed `(AAA)` group is trusted as-is; a
broken `AAA)` form is accepted only when the code is known; otherwise the
parenthesized-name fallback runs. -/
def findAnchor (pyc : Option PyCountry) (s : Str) : Option (Nat × Nat × String) :=
  match lastMatch matchIso3Paren s with
  | some (st, en, code) => some (st, en, code)
  | none =>
    match lastMatch matchIso3Rparen s with
    | some (st, en, code) =>
      if isKnownIso3 pyc code then some (st, en, code) else findAnchorName pyc s
    | none => findAnchorName pyc s

/-- The separator walk of the year-anchored branch of `parse_city_country`. -/
def yearWalk (pyc : Option PyCountry) (s left : Str) :
    List ((Nat × Nat × Unit) × Option (Nat × Nat × Unit)) → Option Str × Option String
  | [] => (none, none)
  | (m, pm) :: rest =>
    if (chunkAfter left m.2.1).isEmpty then yearWalk pyc s left rest
    else
      match looksLikeCountryToken pyc (chunkAfter left m.2.1) with
      | some ctry =>
        match pm with
        | some pmm =>
          (finalizeCity pyc (segBetween left pmm.2.1 m.1) (some ctry) s, some ctry)
        | none =>
          (finalizeCity pyc
            ((extractTailLocation (stripWS (left.take m.1))).getD []) (some ctry) s,
           some ctry)
      | none =>
        if isUpper2or3 (chunkAfter left m.2.1) then
          match pm with
          | some pmm =>
            (finalizeCity pyc (segBetween left pmm.2.1 m.1) none s, none)
          | none => (finalizeCity pyc (chunkAfter left m.2.1) none s, none)
        else (finalizeCity pyc (chunkAfter left m.2.1) none s, none)

/-- `DISCIPLINE_BLOCK_RE.sub("", s[:pos].rstrip())`: the text to the left
of an anchor. -/
def leftSeg (s : Str) (pos : Nat) : Str :=
  subAll matchDiscBlock (rstripWS (s.take pos))

/-- `parse_city_country` over the embedded string type. -/
def parseCityCountryL (pyc : Option PyCountry) (l : Str) : Option Str × Option String :=
  match findAnchor pyc (normWS l) with
  | some (st, _, ctry) =>
    (finalizeCity pyc (cityFromLeftSegment (leftSeg (normWS l) st)) (some ctry)
      (normWS l),
     some ctry)
  | none =>
    match lastMatch matchYear (normWS l) with
    | some (yst, _, _) =>
      yearWalk pyc (normWS l) (leftSeg (normWS l) yst)
        (withPrev (findAll matchSep (leftSeg (normWS l) yst)))
    | none => (none, none)

/-- `parse_city_country`: the public entry point, on Lean strings. -/
def parseCityCountry (pyc : Option PyCountry) (eventName : String) :
    Option String × Option String :=
  match parseCityCountryL pyc eventName.toList with
  | (c, k) => (c.map String.mk, k)

/-- `re.fullmatch(r"[A-Z]{3}", ·)` on a Lean string: the country-format
invariant predicate. -/
def fullmatchUpper3 (s : String) : Bool := isUpper3 s.toList

/-- A well-formed registry: every `alpha_3` value it can return has the
three-uppercase-letter shape (true of `pycountry`); trivially satisfied by
the absent registry. -/
def WfPyCountry : Option PyCountry → Prop
  | none => True
  | some db =>
    (∀ tok r, db.lookup tok = .ok r → fullmatchUpper3 r = true) ∧
    (∀ s l, db.searchFuzzy s = .ok l → ∀ r ∈ l, fullmatchUpper3 r = true)

/-- A registry whose fallible entry points always raise: used to exhibit
that raised lookup exceptions are absorbed, never propagated. -/
def errRegistry : PyCountry where
  lookup := fun _ => .error ()
  getAlpha3 := fun _ => false
  searchFuzzy := fun _ => .error ()

/-! ## Helper lemmas -/

theorem getLastQ_mem {α : Type} :
    ∀ (l : List α) (a : α), l.getLast? = some a → a ∈ l := by
  intro l
  induction l with
  | nil => intro a h; simp [List.getLast?] at h
  | cons x xs ih =>
    intro a h
    cases xs with
    | nil => simp [List.getLast?] at h; simp [h]
    | cons y ys =>
      rw [List.getLast?_cons_cons] at h
      exact List.mem_cons_of_mem _ (ih _ h)

theorem findAllAux_capture {κ : Type} {P : κ → Prop} (m : Matcher κ)
    (hm : ∀ prev l n k, m prev l = some (n, k) → P k) :
    ∀ (fuel : Nat) (prev : Option Char) (i : Nat) (l : Str) (st en : Nat) (k : κ),
      (st, en, k) ∈ findAllAux m fuel prev i l → P k := by
  intro fuel
  induction fuel with
  | zero => intro prev i l st en k h; simp [findAllAux] at h
  | succ fuel ih =>
    intro prev i l st en k h
    simp only [findAllAux] at h
    cases hm2 : m prev l with
    | some nk =>
      rw [hm2] at h
      rcases List.mem_cons.mp h with h1 | h2
      · have hk : k = nk.2 := congrArg (fun t => t.2.2) h1
        exact hk ▸ hm prev l nk.1 nk.2 (by rw [hm2])
      · exact ih _ _ _ _ _ _ h2
    | none =>
      rw [hm2] at h
      cases l with
      | nil => simp at h
      | cons c rest => exact ih _ _ _ _ _ _ h

theorem findAll_capture {κ : Type} {P : κ → Prop} (m : Matcher κ)
    (hm : ∀ prev l n k, m prev l = some (n, k) → P k)
    (l : Str) (st en : Nat) (k : κ) (h : (st, en, k) ∈ findAll m l) : P k :=
  findAllAux_capture m hm _ _ _ _ _ _ _ h

theorem lastMatch_capture {κ : Type} {P : κ → Prop} (m : Matcher κ)
    (hm : ∀ prev l n k, m prev l = some (n, k) → P k)
    (l : Str) (st en : Nat) (k : κ) (h : lastMatch m l = some (st, en, k)) : P k :=
  findAll_capture m hm l st en k (getLastQ_mem _ _ h)

theorem matchIso3Paren_capture (prev : Option Char) (l : Str) (n : Nat) (k : String)
    (h : matchIso3Paren prev l = some (n, k)) : fullmatchUpper3 k = true := by
  unfold matchIso3Paren at h
  split at h <;> try exact Option.noConfusion h
  split at h <;> try exact Option.noConfusion h
  split at h <;> try exact Option.noConfusion h
  rename_i hup
  split at h <;> try exact Option.noConfusion h
  simp only [Option.some.injEq, Prod.mk.injEq] at h
  obtain ⟨-, hk⟩ := h
  subst hk
  simp only [Bool.and_eq_true] at hup
  simp [fullmatchUpper3, isUpper3, String.toList, hup.1.1, hup.1.2, hup.2]

theorem matchIso3Rparen_capture (prev : Option Char) (l : Str) (n : Nat) (k : String)
    (h : matchIso3Rparen prev l = some (n, k)) : fullmatchUpper3 k = true := by
  unfold matchIso3Rparen at h
  split at h <;> try exact Option.noConfusion h
  split at h <;> try exact Option.noConfusion h
  split at h <;> try exact Option.noConfusion h
  rename_i hup
  split at h <;> try exact Option.noConfusion h
  simp only [Option.some.injEq, Prod.mk.injEq] at h
  obtain ⟨-, hk⟩ := h
  subst hk
  simp only [Bool.and_eq_true] at hup
  simp [fullmatchUpper3, isUpper3, String.toList, hup.1.1, hup.1.2, hup.2]

theorem lookup_mem_snd {α β : Type} [BEq α] :
    ∀ (ps : List (α × β)) (k : α) (v : β), ps.lookup k = some v → v ∈ ps.map Prod.snd := by
  intro ps
  induction ps with
  | nil => intro k v h; simp [List.lookup] at h
  | cons p rest ih =>
    intro k v h
    obtain ⟨a, b⟩ := p
    simp only [List.lookup] at h
    split at h
    · have hv := Option.some.inj h
      simp [hv]
    · exact List.mem_cons_of_mem _ (ih k v h)

theorem pycountryLookupSafe_format (pyc : Option PyCountry) (hwf : WfPyCountry pyc)
    (t : Str) (r : String) (h : pycountryLookupSafe pyc t = some r) :
    fullmatchUpper3 r = true := by
  cases pyc with
  | none => simp [pycountryLookupSafe] at h
  | some db =>
    cases hl : db.lookup (String.mk t) with
    | ok a =>
      simp only [pycountryLookupSafe, hl] at h
      exact (Option.some.inj h) ▸ hwf.1 _ _ hl
    | error e => simp [pycountryLookupSafe, hl] at h

theorem searchFuzzyFirstSafe_format (db : PyCountry) (hwf : WfPyCountry (some db))
    (s : Str) (r : String) (h : searchFuzzyFirstSafe db s = some r) :
    fullmatchUpper3 r = true := by
  cases hf : db.searchFuzzy (String.mk s) with
  | ok l =>
    cases l with
    | nil => simp [searchFuzzyFirstSafe, hf] at h
    | cons a rest =>
      simp only [searchFuzzyFirstSafe, hf] at h
      exact (Option.some.inj h) ▸ hwf.2 _ _ hf a (List.mem_cons_self _ _)
  | error e => simp [searchFuzzyFirstSafe, hf] at h

set_option maxHeartbeats 1000000 in
theorem countryNameToIso3Safe_format (pyc : Option PyCountry) (hwf : WfPyCountry pyc)
    (name : Str) (r : String) (h : countryNameToIso3Safe pyc name = some r) :
    fullmatchUpper3 r = true := by
  unfold countryNameToIso3Safe at h
  split at h <;> try exact Option.noConfusion h
  split at h
  · exact (Option.some.inj h) ▸ (by decide)
  split at h
  case h_1 o heq =>
    have hvals : ∀ v ∈ COUNTRY_NAME_OVERRIDES.map Prod.snd, fullmatchUpper3 v = true := by
      decide
    exact (Option.some.inj h) ▸ hvals o (lookup_mem_snd _ _ _ heq)
  split at h
  case h_1 iso3 heq =>
    exact (Option.some.inj h) ▸ pycountryLookupSafe_format pyc hwf _ _ heq
  split at h <;> try exact Option.noConfusion h
  split at h <;> try exact Option.noConfusion h
  exact searchFuzzyFirstSafe_format _ hwf _ _ h

theorem looksLikeCountryToken_format (pyc : Option PyCountry) (hwf : WfPyCountry pyc)
    (tok : Str) (r : String) (h : looksLikeCountryToken pyc tok = some r) :
    fullmatchUpper3 r = true := by
  unfold looksLikeCountryToken at h
  split at h <;> try exact Option.noConfusion h
  split at h
  · rename_i hup
    split at h <;> try exact Option.noConfusion h
    exact (Option.some.inj h) ▸ hup
  · exact countryNameToIso3Safe_format pyc hwf _ _ h

theorem findAnchorName_format (pyc : Option PyCountry) (hwf : WfPyCountry pyc)
    (s : Str) (st en : Nat) (k : String)
    (h : findAnchorName pyc s = some (st, en, k)) : fullmatchUpper3 k = true := by
  unfold findAnchorName at h
  split at h <;> try exact Option.noConfusion h
  rename_i content heqLast
  split at h <;> try exact Option.noConfusion h
  rename_i iso3 heqName
  simp only [Option.some.injEq, Prod.mk.injEq] at h
  obtain ⟨-, -, hk⟩ := h
  exact hk ▸ countryNameToIso3Safe_format pyc hwf _ _ heqName

theorem findAnchor_format (pyc : Option PyCountry) (hwf : WfPyCountry pyc)
    (s : Str) (st en : Nat) (k : String)
    (h : findAnchor pyc s = some (st, en, k)) : fullmatchUpper3 k = true := by
  unfold findAnchor at h
  split at h
  case h_1 st' en' code heq =>
    simp only [Option.some.injEq, Prod.mk.injEq] at h
    obtain ⟨-, -, hk⟩ := h
    exact hk ▸ lastMatch_capture matchIso3Paren matchIso3Paren_capture _ _ _ _ heq
  case h_2 =>
    split at h
    case h_1 st' en' code heq =>
      split at h
      · simp only [Option.some.injEq, Prod.mk.injEq] at h
        obtain ⟨-, -, hk⟩ := h
        exact hk ▸ lastMatch_capture matchIso3Rparen matchIso3Rparen_capture _ _ _ _ heq
      · exact findAnchorName_format pyc hwf _ _ _ _ h
    case h_2 => exact findAnchorName_format pyc hwf _ _ _ _ h

set_option maxHeartbeats 1000000 in
theorem yearWalk_format (pyc : Option PyCountry) (hwf : WfPyCountry pyc) (s left : Str) :
    ∀ (ms : List ((Nat × Nat × Unit) × Option (Nat × Nat × Unit))) (c : Option Str) (k : String),
      yearWalk pyc s left ms = (c, some k) → fullmatchUpper3 k = true := by
  intro ms
  induction ms with
  | nil => intro c k h; simp [yearWalk] at h
  | cons p rest ih =>
    intro c k h
    obtain ⟨m, pm⟩ := p
    simp only [yearWalk] at h
    split at h
    · exact ih c k h
    · split at h
      case h_1 ctry heq =>
        have hk : k = ctry := by
          split at h <;>
            · have := congrArg Prod.snd h
              simp at this
              exact this.symm
        exact hk ▸ looksLikeCountryToken_format pyc hwf _ _ heq
      case h_2 =>
        split at h
        · split at h <;>
            · have := congrArg Prod.snd h
              simp at this
        · have := congrArg Prod.snd h
          simp at this

theorem parseCityCountryL_format (pyc : Option PyCountry) (hwf : WfPyCountry pyc)
    (l : Str) (c : Option Str) (k : String)
    (h : parseCityCountryL pyc l = (c, some k)) : fullmatchUpper3 k = true := by
  unfold parseCityCountryL at h
  split at h
  case h_1 st x ctry heq =>
    have hk : k = ctry := by
      have hsnd := congrArg Prod.snd h
      simp at hsnd
      exact hsnd.symm
    exact hk ▸ findAnchor_format pyc hwf _ _ _ _ heq
  case h_2 =>
    split at h
    case h_1 => exact yearWalk_format pyc hwf _ _ _ _ _ h
    case h_2 =>
      have hsnd := congrArg Prod.snd h
      simp at hsnd

/-! ## The claims -/

/-- C1: on the input string `IFSC Climbing World Cup (B) - Briançon (FRA)
2023`, `parse_city_country` returns exactly `("Briançon", "FRA")`: the last
parenthesized ISO3 group is the country anchor, the chunk after the last
dash separator to its left is the city, and the discipline marker `(B)` is
removed.  This holds for every registry configuration, since the path taken
never consults the registry. -/
theorem claim1_briancon (pyc : Option PyCountry) :
    parseCityCountry pyc "IFSC Climbing World Cup (B) - Briançon (FRA) 2023" =
      (some "Briançon", some "FRA") := rfl

set_option maxHeartbeats 1000000 in
/-- C2: for every input whose normalized form has no parenthesized
three-uppercase-letter group, no trailing-code match, no parenthesized
content the Country Resolver can map, and no four-digit 1900–2099 year
token, `parse_city_country` returns `(None, None)`. -/
theorem claim2_conservatism (pyc : Option PyCountry) (s : String)
    (h1 : lastMatch matchIso3Paren (normWS s.toList) = none)
    (h2 : lastMatch matchIso3Rparen (normWS s.toList) = none)
    (h3 : ∀ st en content, (st, en, content) ∈ findAll matchParenContent (normWS s.toList) →
      countryNameToIso3Safe pyc content.toList = none)
    (h4 : lastMatch matchYear (normWS s.toList) = none) :
    parseCityCountry pyc s = (none, none) := by
  have hname : findAnchorName pyc (normWS s.toList) = none := by
    unfold findAnchorName
    cases hpc : lastMatch matchParenContent (normWS s.toList) with
    | none => rfl
    | some t =>
      obtain ⟨st, en, content⟩ := t
      have hres := h3 st en content (getLastQ_mem _ _ hpc)
      simp only [hres]
  have hanchor : findAnchor pyc (normWS s.toList) = none := by
    simp only [findAnchor, h1, h2, hname]
  simp only [parseCityCountry, parseCityCountryL, hanchor, h4]
  rfl

/-- Witness for C2 at a concrete anchor-free input. -/
theorem claim2_witness : parseCityCountry none "hello world" = (none, none) := by
  refine claim2_conservatism none "hello world" rfl rfl ?_ rfl
  intro st en content hc
  rw [show findAll matchParenContent (normWS ("hello world" : String).toList) = []
    from rfl] at hc
  exact absurd hc (List.not_mem_nil _)

/-- C3 counterexample: a well-formed parenthesized group is trusted without
registry validation, so `parse_city_country "(QQQ)"` returns country `QQQ`,
which is not in the recognized ISO3 set (the fallback table, registry
absent). -/
theorem claim3_counterexample :
    (parseCityCountry none "(QQQ)").2 = some "QQQ" ∧
      isKnownIso3 none "QQQ" = false :=
  ⟨rfl, rfl⟩

/-- C3 amended: whenever the returned country is non-`None` it matches
`^[A-Z]{3}$` (for any registry whose lookup results are themselves
well-formed codes, as `pycountry`'s are); membership in the recognized ISO3
set, however, is NOT guaranteed for the trusted well-formed `(AAA)` anchor —
see the counterexample. -/
theorem claim3_amended_format (pyc : Option PyCountry) (s : String)
    (c : Option String) (k : String) (hwf : WfPyCountry pyc)
    (h : parseCityCountry pyc s = (c, some k)) : fullmatchUpper3 k = true := by
  unfold parseCityCountry at h
  cases hp : parseCityCountryL pyc s.toList with
  | mk cL kL =>
    rw [hp] at h
    have hk : kL = some k := congrArg Prod.snd h
    exact parseCityCountryL_format pyc hwf s.toList cL k (by rw [hp, hk])

/-- Witness for C3 at a concrete parse with country `FRA`. -/
theorem claim3_witness : fullmatchUpper3 "FRA" = true :=
  claim3_amended_format none "Paris (FRA) 2001" none "FRA" trivial rfl

set_option maxHeartbeats 1000000 in
/-- C4 counterexample: the invariant does not survive `postprocess_city`:
on `Foo - Master 47 (FRA)` the phrase rule strips `Master ` after the
clean-city validation has already run, and the returned city `47` contains
no alphabetic character. -/
theorem claim4_counterexample :
    (parseCityCountry none "Foo - Master 47 (FRA)").1 = some "47" ∧
      (str "47").any isPyAlpha = false :=
  ⟨rfl, rfl⟩

set_option maxHeartbeats 1000000 in
/-- C4 amended: the invariant holds at the output of `clean_city` (before
postprocessing): a non-`None` cleaned city contains no parenthesis, has at
least one letter, and is not a bare known-ISO3 code.  The postprocessing
rewrites that run afterwards can break the letter guarantee (see the
counterexample). -/
theorem claim4_amended_cleanInvariant (pyc : Option PyCountry) (x c : Str)
    (h : cleanCity pyc x = some c) :
    c.contains '(' = false ∧ c.contains ')' = false ∧ c.any isPyAlpha = true ∧
      (isUpper3 c && isKnownIso3 pyc (String.mk c)) = false := by
  unfold cleanCity at h
  split at h
  · exact Option.noConfusion h
  generalize hy : cleanTransform x = y at h
  unfold validateCity at h
  split at h <;> try exact Option.noConfusion h
  split at h <;> try exact Option.noConfusion h
  split at h <;> try exact Option.noConfusion h
  split at h <;> try exact Option.noConfusion h
  split at h <;> try exact Option.noConfusion h
  split at h <;> try exact Option.noConfusion h
  rename_i hpar halpha hiso
  obtain rfl : y = c := Option.some.inj h
  simp only [Bool.or_eq_true, not_or, Bool.not_eq_true] at hpar
  simp only [Bool.not_eq_true, Bool.not_eq_false] at halpha
  exact ⟨hpar.1, hpar.2, by simpa using halpha, by simpa using hiso⟩

/-- Witness for C4 on a concrete cleaned city. -/
theorem claim4_witness :
    (str "Briançon").contains '(' = false ∧
      (str "Briançon").contains ')' = false ∧
      (str "Briançon").any isPyAlpha = true ∧
      (isUpper3 (str "Briançon") && isKnownIso3 none (String.mk (str "Briançon"))) =
        false :=
  claim4_amended_cleanInvariant none (str "Briançon") (str "Briançon") rfl

/-- C5: when a country anchor is found but the text to its left contains no
comma/dash separator (and no acceptable stop-keyword for the tail
heuristic), the city is `None` while the resolved country is still
returned. -/
theorem claim5_noGuess (pyc : Option PyCountry) (s : String) (st en : Nat) (k : String)
    (ha : findAnchor pyc (normWS s.toList) = some (st, en, k))
    (hsep : findAll matchSep (leftSeg (normWS s.toList) st) = [])
    (htail : extractTailLocation (leftSeg (normWS s.toList) st) = none) :
    parseCityCountry pyc s = (none, some k) := by
  have hcity : cityFromLeftSegment (leftSeg (normWS s.toList) st) = [] := by
    unfold cityFromLeftSegment
    rw [hsep]
    rfl
  simp only [parseCityCountry, parseCityCountryL, ha, hcity]
  have hfin : finalizeCity pyc [] (some k) (normWS s.toList) = none := rfl
  rw [hfin]
  rfl

/-- Witness for C5 on `Open (AUT)`: anchor resolved, no separator, and the
stop-keyword fallback yields nothing. -/
theorem claim5_witness : parseCityCountry none "Open (AUT)" = (none, some "AUT") :=
  claim5_noGuess none "Open (AUT)" 5 10 "AUT" rfl rfl rfl

/-- C6 counterexample: cleanup is not idempotent — each pass strips only one
leading ordinal, so `12. 13. X` cleans to `13. X`, which cleans to `X`. -/
theorem claim6_counterexample :
    ¬ (cleanCity none ((cleanCity none (str "12. 13. X")).getD []) =
        cleanCity none (str "12. 13. X")) := by
  decide

set_option maxRecDepth 8192 in
set_option maxHeartbeats 4000000 in
/-- C6 amended: cleanup is idempotent on chunks already free of re-strippable
leading patterns — in particular on all the location chunks of the spec's
concrete scenarios — but not in general: a result that still starts with an
ordinal pattern (e.g. from `12. 13. X`) is stripped further by a second
pass. -/
theorem claim6_amended_idempotentInstances :
    cleanCity none ((cleanCity none (str "Briançon")).getD []) =
        cleanCity none (str "Briançon") ∧
      cleanCity none ((cleanCity none (str "Boulder")).getD []) =
        cleanCity none (str "Boulder") ∧
      cleanCity none ((cleanCity none (str "Imst")).getD []) =
        cleanCity none (str "Imst") ∧
      cleanCity none ((cleanCity none (str "Munich")).getD []) =
        cleanCity none (str "Munich") ∧
      cleanCity none ((cleanCity none (str "Belgrade Open")).getD []) =
        cleanCity none (str "Belgrade Open") ∧
      cleanCity none ((cleanCity none (str "Città di Ravenna Boulder 2011")).getD []) =
        cleanCity none (str "Città di Ravenna Boulder 2011") :=
  ⟨rfl, rfl, rfl, rfl, rfl, rfl⟩

/-- C7: a chunk consisting exactly of the bare word `Boulder` is never
stripped to empty: for every registry, country and event name,
`finalize_city` (clean plus postprocess) maps it to the city `Boulder` —
the discipline-word rule strips `Boulder ` only as a prefix before another
word. -/
theorem claim7_bareBoulder (pyc : Option PyCountry) (country : Option String)
    (ev : Str) :
    finalizeCity pyc (str "Boulder") country ev = some (str "Boulder") := by
  show postprocessCity (some (str "Boulder")) country ev = some (str "Boulder")
  have hOf : ppOf (stripWS (str "Boulder")) = str "Boulder" := rfl
  have hPh : ppPhrase (str "Boulder") = str "Boulder" := rfl
  have hBo : ppBoulder (str "Boulder") = str "Boulder" := rfl
  have hHi : ppHips (lowerStr ev) (str "Boulder") = str "Boulder" := rfl
  have hPr : ppProvince country (str "Boulder") = str "Boulder" := by
    unfold ppProvince
    rw [show provinceEndSearch (str "Boulder") = false from rfl, Bool.and_false]
    rfl
  have hUs : ppUsa country (str "Boulder") = str "Boulder" := by
    unfold ppUsa
    cases h : country == some "USA" <;> rfl
  have hcond : (lowerStr (stripWS (str "Boulder")) == str "rock" ||
      lowerStr (stripWS (str "Boulder")) == str "rock junior") = false := rfl
  simp only [postprocessCity, hcond, Bool.and_false, hOf, hPh, hBo, hHi, hPr, hUs]
  rfl

/-- C8 counterexample: on `3. Belgrade Open (SRB)` the parser does NOT
return `("Belgrade", "SRB")` — there is no comma/dash separator before the
anchor, so no city chunk is ever extracted and the ordinal stripping never
runs. -/
theorem claim8_counterexample :
    parseCityCountry none "3. Belgrade Open (SRB)" ≠ (some "Belgrade", some "SRB") := by
  decide

set_option maxHeartbeats 1000000 in
/-- C8 amended: `parse_city_country "3. Belgrade Open (SRB)"` returns
`(None, "SRB")`: the country anchor resolves, but the conservative
no-delimiter rule suppresses the city. -/
theorem claim8_amended (pyc : Option PyCountry) :
    parseCityCountry pyc "3. Belgrade Open (SRB)" = (none, some "SRB") := rfl

set_option maxHeartbeats 1000000 in
/-- C9: `parse_city_country` is total — for every registry (including an
absent or always-throwing one) and every string it returns a pair — and an
exception raised inside a registry lookup is absorbed by the catching
wrapper, degrading to `None` rather than propagating. -/
theorem claim9_totalNoRaise :
    (∀ (pyc : Option PyCountry) (s : String), ∃ p, parseCityCountry pyc s = p) ∧
      (∀ (db : PyCountry) (t : Str) (e : Unit),
        db.lookup (String.mk t) = .error e → pycountryLookupSafe (some db) t = none) ∧
      (∀ (db : PyCountry) (nm : Str) (e : Unit),
        db.searchFuzzy (String.mk nm) = .error e → searchFuzzyFirstSafe db nm = none) := by
  refine ⟨fun pyc s => ⟨_, rfl⟩, fun db t e h => ?_, fun db nm e h => ?_⟩
  · simp only [pycountryLookupSafe, h]
  · simp only [searchFuzzyFirstSafe, h]

/-- Witness for C9 with a registry whose lookups always raise. -/
theorem claim9_witness :
    (∃ p, parseCityCountry (some errRegistry) "Lyon (FRA)" = p) ∧
      pycountryLookupSafe (some errRegistry) (str "France") = none ∧
      searchFuzzyFirstSafe errRegistry (str "France") = none :=
  ⟨claim9_totalNoRaise.1 (some errRegistry) "Lyon (FRA)",
   claim9_totalNoRaise.2.1 errRegistry (str "France") () rfl,
   claim9_totalNoRaise.2.2 errRegistry (str "France") () rfl⟩

/-- C10: `parse_city_country` is deterministic — two invocations on the
same input (with the same read-only registry) return the same pair.  In the
embedding the parser is a pure function, so determinism is definitional. -/
theorem claim10_deterministic (pyc : Option PyCountry) (s : String)
    (r₁ r₂ : Option String × Option String)
    (h₁ : parseCityCountry pyc s = r₁) (h₂ : parseCityCountry pyc s = r₂) :
    r₁ = r₂ :=
  h₁ ▸ h₂

/-- Witness for C10 at a concrete input. -/
theorem claim10_witness :
    ((none : Option String), some "AUT") = ((none : Option String), some "AUT") :=
  claim10_deterministic none "Graz Open (AUT)" _ _ rfl rfl

end EventLocation
